import Mathlib

/-!
Shallow embedding of the semantic-conditioning experiment pipeline:
`semantic_conditioning_test.py` (trial orchestration, correctness checking),
`evaluate_quality.py` (interactive blind scoring), and
`reveal_results.py` (statistical analysis).

External effects are modelled as explicit oracle parameters passed to the
embedded functions: the generation service and the per-trial exception
behaviour (`gen`), the subprocess sandbox (`exec`), the random number
generator (the two shuffles `sh1`/`sh2` and the blind-id stream `bid`),
and wall-clock timestamps (`stamp`).  Pure computations are translated
directly from the source.  Python floats are idealized as real numbers;
Python `dict` is modelled as an insertion-ordered association list with
overwrite-in-place semantics; fallible code (division by a zero length)
returns `Option`.
-/

/-- A prompt-decoration template (source: `Condition` dataclass).  The source
field names are `prefix` and `suffix`; they are shortened to `pfx`/`sfx` here. -/
structure Condition where
  name : String
  pfx : String
  sfx : String
  deriving DecidableEq, Repr

/-- The five experimental arms (source: module-level `CONDITIONS`). -/
def CONDITIONS : List Condition :=
  [ { name := "control", pfx := "", sfx := "" },
    { name := "common_english",
      pfx := "Write high-quality, production-ready code.\n\n", sfx := "" },
    { name := "greek_arete",
      pfx := "Write code embodying ἀρετή (excellence).\n\n", sfx := "" },
    { name := "japanese_shokunin",
      pfx := "Write code with 職人気質 (craftsman spirit).\n\n", sfx := "" },
    { name := "combined",
      pfx := "Write code embodying ἀρετή and 職人気質.\n\n", sfx := "" } ]

/-- One benchmark problem as loaded by `load_humaneval_problems`. -/
structure Problem where
  prompt : String
  test : String
  entry_point : String
  canonical_solution : String
  deriving DecidableEq, Repr

def defaultProblem : Problem :=
  { prompt := "", test := "", entry_point := "", canonical_solution := "" }

/-- Source: `TrialResult` dataclass. -/
structure TrialResult where
  problem_id : String
  condition : String
  completion : String
  passed : Bool
  error : Option String
  timestamp : String
  blind_id : String
  deriving DecidableEq, Repr

/-- One entry of the blind-eval file: the redacted row appended to
`blind_outputs` (condition intentionally omitted). -/
structure BlindOutput where
  blind_id : String
  problem_id : String
  prompt : String
  completion : String
  passed : Bool
  deriving DecidableEq, Repr

/-- The fields shared by a blind-eval entry and a full-results entry, with the
condition attached: the record produced by re-attaching the keyed condition to
a blind-eval entry, and likewise the restriction of a `TrialResult` to those
fields.  (`TrialResult` has no `prompt` field, so `prompt` is compared
separately against the problem table.) -/
structure Restored where
  blind_id : String
  problem_id : String
  completion : String
  passed : Bool
  condition : String
  deriving DecidableEq, Repr

/-- Re-attach a condition (looked up in the key file) to a blind-eval entry. -/
def restoreCondition (b : BlindOutput) (c : String) : Restored :=
  { blind_id := b.blind_id, problem_id := b.problem_id, completion := b.completion,
    passed := b.passed, condition := c }

/-- Restrict a full-results entry to the fields shared with the blind file,
keeping its condition. -/
def restrictResult (r : TrialResult) : Restored :=
  { blind_id := r.blind_id, problem_id := r.problem_id, completion := r.completion,
    passed := r.passed, condition := r.condition }

/-- Python string slicing `s[:n]`: the first `n` characters (code points). -/
def pySlice (s : String) (n : Nat) : String := ⟨s.data.take n⟩

/-- The full request text built by `generate_completion` (source line 110):
`f"{condition.prefix}Complete the following Python function:\n\n{prompt}{condition.suffix}"`. -/
def full_prompt (prompt : String) (condition : Condition) : String :=
  condition.pfx ++ "Complete the following Python function:\n\n" ++ prompt ++ condition.sfx

/-- Modelled from the spec: the request text as the spec words it
(`prefix + "Complete the following function:\n\n" + prompt + suffix`),
for comparison with `full_prompt`, which is translated from the source. -/
def specRequestText (prompt : String) (condition : Condition) : String :=
  condition.pfx ++ "Complete the following function:\n\n" ++ prompt ++ condition.sfx

/-- The single program assembled by `check_correctness` (source line 135). -/
def full_code (prompt completion test entry_point : String) : String :=
  prompt ++ completion ++ "\n\n" ++ test ++ "\n\ncheck(" ++ entry_point ++ ")"

/-- Outcome of running the assembled program in the sandbox subprocess:
normal completion with an exit code and captured stderr, the timeout
elapsing (`subprocess.TimeoutExpired`), or the launch itself raising. -/
inductive ExecOutcome where
  | completed (returncode : Int) (stderr : String)
  | timedOut
  | launchError (msg : String)
  deriving DecidableEq, Repr

/-- Source: `check_correctness`.  The subprocess itself is the oracle `exec`,
keyed by the text of the program it is asked to run; the timeout value is
enforced inside the oracle.  Every branch of the source's try/except returns
a pair, so the embedding is a total function: no exception escapes. -/
def check_correctness (prompt completion test entry_point : String) (timeoutSec : ℚ)
    (exec : String → ExecOutcome) : Bool × Option String :=
  match exec (full_code prompt completion test entry_point) with
  | ExecOutcome.completed rc stderr =>
      if rc = 0 then (true, none) else (false, some (pySlice stderr 500))
  | ExecOutcome.timedOut => (false, some "Timeout")
  | ExecOutcome.launchError e => (false, some (pySlice e 500))

/-- Association-list lookup, modelling Python `d[k]` / `k in d`. -/
def alookup {β : Type} : List (String × β) → String → Option β
  | [], _ => none
  | (k, v) :: m, key => if key = k then some v else alookup m key

/-- Python `dict` assignment `d[k] = v`: overwrite the first entry holding the
key in place (keeping its position), else append a new entry at the end. -/
def dictInsert {β : Type} : List (String × β) → String → β → List (String × β)
  | [], k, v => [(k, v)]
  | (k₁, v₁) :: m, k, v =>
      if k₁ = k then (k, v) :: m else (k₁, v₁) :: dictInsert m k v

/-- The condition key built at source line 251:
`key_mapping = {r["blind_id"]: r["condition"] for r in results}`. -/
def buildKey (results : List TrialResult) : List (String × String) :=
  results.foldl (fun m r => dictInsert m r.blind_id r.condition) []

/-- The flat trial list built at source lines 180-185:
`[(problem_id, condition) for problem_id in problems.keys()
  for condition in CONDITIONS for _ in range(n)]`. -/
def mkTrials (problems : List (String × Problem)) (conditions : List Condition)
    (n : Nat) : List (String × Condition) :=
  problems.flatMap fun p =>
    conditions.flatMap fun c => (List.range n).map fun _ => (p.1, c)

/-- The body of the per-trial loop (source lines 190-227), producing the
`TrialResult` appended to `results`.  `gen i` is the outcome of the try-block
of trial `i`: `Except.ok (completion, passed, error)` when generation and
checking complete, `Except.error e` when an exception is raised anywhere in
generation or checking (the `except` branch records `completion=""`,
`passed=False`, `error=f"Generation error: {e}"`). -/
def mkTrialResult (gen : Nat → Except String (String × Bool × Option String))
    (bid stamp : Nat → String) (it : Nat × String × Condition) : TrialResult :=
  match gen it.1 with
  | Except.ok (completion, passed, err) =>
      { problem_id := it.2.1, condition := it.2.2.name, completion := completion,
        passed := passed, error := err, timestamp := stamp it.1, blind_id := bid it.1 }
  | Except.error e =>
      { problem_id := it.2.1, condition := it.2.2.name, completion := "",
        passed := false, error := some ("Generation error: " ++ e),
        timestamp := stamp it.1, blind_id := bid it.1 }

/-- The redacted row appended to `blind_outputs` for the same trial
(source lines 230-237): condition intentionally omitted, prompt looked up
from the problem table. -/
def mkBlindOutput (problems : List (String × Problem))
    (gen : Nat → Except String (String × Bool × Option String))
    (bid : Nat → String) (it : Nat × String × Condition) : BlindOutput :=
  let problem := (alookup problems it.2.1).getD defaultProblem
  match gen it.1 with
  | Except.ok (completion, passed, _) =>
      { blind_id := bid it.1, problem_id := it.2.1, prompt := problem.prompt,
        completion := completion, passed := passed }
  | Except.error _ =>
      { blind_id := bid it.1, problem_id := it.2.1, prompt := problem.prompt,
        completion := "", passed := false }

/-- The `results` list accumulated by the trial loop: the loop body has no
cross-trial state, so the appends are a map over the enumerated trials. -/
def runResults (gen : Nat → Except String (String × Bool × Option String))
    (bid stamp : Nat → String) (trials : List (String × Condition)) :
    List TrialResult :=
  trials.enum.map (mkTrialResult gen bid stamp)

/-- The `blind_outputs` list accumulated by the trial loop, in execution
order (before the second shuffle). -/
def runBlinds (problems : List (String × Problem))
    (gen : Nat → Except String (String × Bool × Option String))
    (bid : Nat → String) (trials : List (String × Condition)) :
    List BlindOutput :=
  trials.enum.map (mkBlindOutput problems gen bid)

/-- The summary dict returned by `run_experiment` (source lines 283-289). -/
structure Summary where
  total_trials : Nat
  overall_pass_rate : ℚ
  deriving DecidableEq, Repr

/-- The per-condition pass-rate printout (source lines 260-265):
`rate = passed / total if total > 0 else 0`. -/
def condPassRate (results : List TrialResult) (cname : String) : ℚ :=
  let cr := results.filter fun r => r.condition = cname
  let passed := (cr.filter fun r => r.passed).length
  if cr.length > 0 then (passed : ℚ) / (cr.length : ℚ) else 0

/-- The per-problem pass-rate printout (source lines 271-276), same guard. -/
def probPassRate (results : List TrialResult) (pid : String) : ℚ :=
  let pr := results.filter fun r => r.problem_id = pid
  let passed := (pr.filter fun r => r.passed).length
  if pr.length > 0 then (passed : ℚ) / (pr.length : ℚ) else 0

/-- The three artifact files plus the returned value of `run_experiment`. -/
structure RunOutput where
  resultsFile : List TrialResult
  blindEvalFile : List BlindOutput
  keyFile : List (String × String)
  summary : Option Summary
  deriving Repr

/-- Source: `run_experiment`.  `sh1` models `random.shuffle(trials)` and `sh2`
models the second, independent `random.shuffle(blind_outputs)` before the
blind file is written (each is stated against the contract that a shuffle is
a permutation).  `summary` is `none` exactly when the overall-pass-rate
division `sum(...) / len(results)` has a zero denominator, which in the
source raises `ZeroDivisionError` after the three files are written. -/
def run_experiment (problems : List (String × Problem)) (conditions : List Condition)
    (n : Nat) (gen : Nat → Except String (String × Bool × Option String))
    (bid stamp : Nat → String)
    (sh1 : List (String × Condition) → List (String × Condition))
    (sh2 : List BlindOutput → List BlindOutput) : RunOutput :=
  let trials := sh1 (mkTrials problems conditions n)
  let results := runResults gen bid stamp trials
  let blinds := runBlinds problems gen bid trials
  { resultsFile := results
    blindEvalFile := sh2 blinds
    keyFile := buildKey results
    summary :=
      if results.length = 0 then none
      else some { total_trials := results.length,
                  overall_pass_rate :=
                    ((results.filter fun r => r.passed).length : ℚ) / (results.length : ℚ) } }

/-- One score record as stored by the interactive session (source lines
134-141). -/
structure ScoreRecord where
  edge_cases : Int
  error_handling : Int
  idiomaticity : Int
  documentation : Int
  ship_it : Int
  total : Int
  deriving DecidableEq, Repr

/-- The score store: Python dict from blind_id to `ScoreRecord`, as an
association list where the head is the most recent binding. -/
abbrev Scores := List (String × ScoreRecord)

/-- Python whitespace, for `str.strip` (space, tab, newline, return, vertical
tab, form feed).  Strings are handled at the code-point (`Char`) level
throughout the parsing pipeline, matching Python string semantics. -/
def isPySpace (c : Char) : Bool :=
  c = ' ' || c = '\t' || c = '\n' || c = '\r' || c = '\x0b' || c = '\x0c'

/-- Python `token.strip()`. -/
def pyStrip (s : List Char) : List Char :=
  ((s.dropWhile isPySpace).reverse.dropWhile isPySpace).reverse

/-- Python `token.lower()`. -/
def pyLower (s : List Char) : List Char := s.map Char.toLower

def pySplitCommaAux : List Char → List Char → List (List Char)
  | [], acc => [acc.reverse]
  | c :: rest, acc =>
      if c = ',' then acc.reverse :: pySplitCommaAux rest []
      else pySplitCommaAux rest (c :: acc)

/-- Python `response.split(',')`. -/
def pySplitComma (s : List Char) : List (List Char) := pySplitCommaAux s []

def digitVal (c : Char) : Option Nat :=
  if '0' ≤ c ∧ c ≤ '9' then some (c.toNat - Char.toNat '0') else none

def digitsValAux : List Char → Nat → Option Nat
  | [], acc => some acc
  | c :: rest, acc =>
      match digitVal c with
      | some d => digitsValAux rest (acc * 10 + d)
      | none => none

/-- Python `int(token)`: an optional sign followed by at least one decimal
digit; anything else raises `ValueError`, modelled as `none`. -/
def pyInt (s : List Char) : Option Int :=
  match s with
  | [] => none
  | c :: rest =>
      if c = '-' then
        match rest with
        | [] => none
        | _ => (digitsValAux rest 0).map fun m => -(m : Int)
      else if c = '+' then
        match rest with
        | [] => none
        | _ => (digitsValAux rest 0).map fun m => (m : Int)
      else (digitsValAux s 0).map fun m => (m : Int)

/-- Parsing of the comma-separated response (source line 126):
`[int(x.strip()) for x in response.split(',')]`; any token that `int`
rejects makes the whole parse fail (the `ValueError` branch). -/
def parseParts (response : List Char) : Option (List Int) :=
  (pySplitComma response).mapM fun x => pyInt (pyStrip x)

/-- Validation and record construction (source lines 125-141): reject when the
count is not five, reject when any value is outside 1..5, otherwise build the
record with `total = sum(parts)`. -/
def processResponse (response : List Char) : Option ScoreRecord :=
  match parseParts response with
  | none => none
  | some [a, b, c, d, e] =>
      if (1 ≤ a ∧ a ≤ 5) ∧ (1 ≤ b ∧ b ≤ 5) ∧ (1 ≤ c ∧ c ≤ 5) ∧
         (1 ≤ d ∧ d ≤ 5) ∧ (1 ≤ e ∧ e ≤ 5) then
        some { edge_cases := a, error_handling := b, idiomaticity := c,
               documentation := d, ship_it := e, total := a + b + c + d + e }
      else none
  | some _ => none

/-- Result of the inner `while True` prompt loop for one sample: the operator
quit (`'q'`, save and end the session), skipped (`'s'`), entered a valid score,
or the input stream ran out (which ends the session in this model). -/
inductive PromptResult where
  | quit
  | exhausted
  | skip (remaining : List String)
  | scored (record : ScoreRecord) (remaining : List String)

/-- The inner prompt loop (source lines 111-146): read a response, strip and
lowercase it, recognize the two control inputs, otherwise parse and validate,
re-prompting on every rejection. -/
def promptLoop : List String → PromptResult
  | [] => PromptResult.exhausted
  | resp :: rest =>
    let r := pyLower (pyStrip resp.data)
    if r = ['q'] then PromptResult.quit
    else if r = ['s'] then PromptResult.skip rest
    else
      match processResponse r with
      | some sc => PromptResult.scored sc rest
      | none => promptLoop rest

/-- The outer loop of `evaluate_interactively` (source lines 92-153) over the
blind-eval entries, threading the score store and the remaining operator
inputs.  A sample whose blind_id is already in the store is skipped without
prompting.  Returns the store as persisted at session end together with the
list of blind_ids the operator was actually prompted for. -/
def sessionRun : List BlindOutput → List String → Scores → Scores × List String
  | [], _, scores => (scores, [])
  | item :: rest, inputs, scores =>
    if (alookup scores item.blind_id).isSome then
      sessionRun rest inputs scores
    else
      match promptLoop inputs with
      | PromptResult.quit => (scores, [item.blind_id])
      | PromptResult.exhausted => (scores, [item.blind_id])
      | PromptResult.skip remaining =>
          let next := sessionRun rest remaining scores
          (next.1, item.blind_id :: next.2)
      | PromptResult.scored sc remaining =>
          let next := sessionRun rest remaining ((item.blind_id, sc) :: scores)
          (next.1, item.blind_id :: next.2)

/-- The invariant claimed for every produced `ScoreRecord`: each dimension in
1..5 and `total` the exact sum of the five. -/
def ValidScore (r : ScoreRecord) : Prop :=
  r.total = r.edge_cases + r.error_handling + r.idiomaticity + r.documentation + r.ship_it ∧
  1 ≤ r.edge_cases ∧ r.edge_cases ≤ 5 ∧
  1 ≤ r.error_handling ∧ r.error_handling ≤ 5 ∧
  1 ≤ r.idiomaticity ∧ r.idiomaticity ≤ 5 ∧
  1 ≤ r.documentation ∧ r.documentation ≤ 5 ∧
  1 ≤ r.ship_it ∧ r.ship_it ≤ 5

instance (r : ScoreRecord) : Decidable (ValidScore r) := by
  unfold ValidScore; infer_instance

/-- `statistics.mean` over a group of totals (floats idealized as reals). -/
noncomputable def listMean (xs : List ℝ) : ℝ := xs.sum / xs.length

/-- The guarded sample standard deviation used by `analyze` (source lines 90
and 101): `statistics.stdev(totals) if len(totals) > 1 else 0`, where
`statistics.stdev` is the square root of the Bessel-corrected variance. -/
noncomputable def sampleStdev (xs : List ℝ) : ℝ :=
  if 1 < xs.length then
    Real.sqrt (((xs.map fun x => (x - listMean xs) ^ 2).sum) / ((xs.length - 1 : ℕ) : ℝ))
  else 0

/-- Source line 106:
`pooled_std = ((control_std**2 + std**2) / 2) ** 0.5 if control_std and std else 1` —
defined as exactly 1 whenever either group's standard deviation is zero. -/
noncomputable def pooledStd (control totals : List ℝ) : ℝ :=
  if sampleStdev control = 0 ∨ sampleStdev totals = 0 then 1
  else Real.sqrt ((sampleStdev control ^ 2 + sampleStdev totals ^ 2) / 2)

/-- Source line 107: `effect = diff / pooled_std if pooled_std else 0`, with
`diff = mean - control_mean`. -/
noncomputable def effectSize (control totals : List ℝ) : ℝ :=
  if pooledStd control totals ≠ 0 then
    (listMean totals - listMean control) / pooledStd control totals
  else 0

/-! ### Concrete inputs used to exercise the definitions -/

def exProblem : Problem :=
  { prompt := "def f(x):", test := "assert True", entry_point := "f",
    canonical_solution := "    return x" }

def exProblems : List (String × Problem) := [("HumanEval/2", exProblem)]

def exGen : Nat → Except String (String × Bool × Option String) :=
  fun _ => Except.ok ("    return x", true, none)

def exGenFail : Nat → Except String (String × Bool × Option String) :=
  fun _ => Except.error "boom"

def exBid : Nat → String := fun i => toString i

def exBidDup : Nat → String := fun _ => "dupid"

def exStamp : Nat → String := fun _ => "2024-01-15T00:00:00"

def exTrials : List (String × Condition) :=
  [("HumanEval/2", { name := "control", pfx := "", sfx := "" })]

def exResA : TrialResult :=
  { problem_id := "HumanEval/2", condition := "control", completion := "x",
    passed := true, error := none, timestamp := "t0", blind_id := "dupid" }

def exResB : TrialResult :=
  { problem_id := "HumanEval/2", condition := "combined", completion := "y",
    passed := false, error := some "err", timestamp := "t1", blind_id := "dupid" }

def exScore : ScoreRecord :=
  { edge_cases := 3, error_handling := 2, idiomaticity := 4, documentation := 3,
    ship_it := 3, total := 15 }

def exBlindItem : BlindOutput :=
  { blind_id := "abc123", problem_id := "HumanEval/2", prompt := "def f(x):",
    completion := "    return x", passed := true }

/-! ### Association-list lemmas for the dict model -/

theorem alookup_dictInsert {β : Type} (m : List (String × β)) (k key : String) (v : β) :
    alookup (dictInsert m k v) key = if key = k then some v else alookup m key := by
  induction m with
  | nil => simp [dictInsert, alookup]
  | cons p t ih =>
      obtain ⟨k₁, v₁⟩ := p
      by_cases h1 : k₁ = k
      · subst h1
        by_cases h2 : key = k₁ <;> simp [dictInsert, alookup, h2]
      · by_cases h2 : key = k₁
        · subst h2
          simp [dictInsert, alookup, h1, Ne.symm h1]
        · simp [dictInsert, alookup, h1, h2, ih]

theorem keys_dictInsert {β : Type} (m : List (String × β)) (k : String) (v : β) :
    (dictInsert m k v).map Prod.fst
      = if k ∈ m.map Prod.fst then m.map Prod.fst else m.map Prod.fst ++ [k] := by
  induction m with
  | nil => simp [dictInsert]
  | cons p t ih =>
      obtain ⟨k₁, v₁⟩ := p
      by_cases h1 : k₁ = k
      · subst h1
        simp [dictInsert]
      · by_cases h2 : k ∈ t.map Prod.fst <;>
          simp [dictInsert, h1, h2, ih, Ne.symm h1]

theorem alookup_foldl_dictInsert (rs : List TrialResult) (m : List (String × String))
    (key : String) :
    alookup (rs.foldl (fun acc r => dictInsert acc r.blind_id r.condition) m) key
      = ((rs.reverse.find? fun r => r.blind_id == key).map TrialResult.condition).or
          (alookup m key) := by
  induction rs generalizing m with
  | nil => simp
  | cons r t ih =>
      simp only [List.foldl_cons, List.reverse_cons, List.find?_append]
      rw [ih]
      by_cases hf : (t.reverse.find? fun x => x.blind_id == key).isSome
      · obtain ⟨w, hw⟩ := Option.isSome_iff_exists.mp hf
        simp [hw]
      · simp only [Option.not_isSome_iff_eq_none] at hf
        rw [hf]
        by_cases h : r.blind_id = key
        · simp [List.find?, h, alookup_dictInsert]
        · have hb : (r.blind_id == key) = false := beq_eq_false_iff_ne.mpr h
          have h2 : ¬ key = r.blind_id := fun hk => h hk.symm
          simp [List.find?, hb, alookup_dictInsert, h2]

/-- The key file implements last-writer-wins: looking up a blind_id returns the
condition of the last result carrying that blind_id. -/
theorem alookup_buildKey (rs : List TrialResult) (key : String) :
    alookup (buildKey rs) key
      = (rs.reverse.find? fun r => r.blind_id == key).map TrialResult.condition := by
  rw [buildKey, alookup_foldl_dictInsert]
  simp [alookup]

theorem alookup_buildKey_isSome (rs : List TrialResult) (key : String) :
    (alookup (buildKey rs) key).isSome ↔ key ∈ rs.map TrialResult.blind_id := by
  rw [alookup_buildKey]
  simp only [Option.isSome_map', List.find?_isSome, List.mem_reverse, List.mem_map]
  constructor
  · rintro ⟨r, hr, hb⟩
    exact ⟨r, hr, beq_iff_eq.mp hb⟩
  · rintro ⟨r, hr, hb⟩
    exact ⟨r, hr, beq_iff_eq.mpr hb⟩

theorem keys_foldl_dictInsert (rs : List TrialResult) (m : List (String × String)) :
    ∀ key, key ∈ (rs.foldl (fun acc r => dictInsert acc r.blind_id r.condition) m).map Prod.fst
      ↔ key ∈ m.map Prod.fst ∨ key ∈ rs.map TrialResult.blind_id := by
  induction rs generalizing m with
  | nil => simp
  | cons r t ih =>
      intro key
      simp only [List.foldl_cons, List.map_cons, List.mem_cons]
      rw [ih, keys_dictInsert]
      by_cases h : r.blind_id ∈ m.map Prod.fst
      · simp only [if_pos h]
        constructor
        · rintro (hm | ht)
          · exact Or.inl hm
          · exact Or.inr (Or.inr ht)
        · rintro (hm | hk | ht)
          · exact Or.inl hm
          · exact Or.inl (hk ▸ h)
          · exact Or.inr ht
      · simp only [if_neg h, List.mem_append, List.mem_singleton]
        tauto

theorem nodup_keys_foldl_dictInsert (rs : List TrialResult) (m : List (String × String))
    (hm : (m.map Prod.fst).Nodup) :
    ((rs.foldl (fun acc r => dictInsert acc r.blind_id r.condition) m).map Prod.fst).Nodup := by
  induction rs generalizing m with
  | nil => exact hm
  | cons r t ih =>
      simp only [List.foldl_cons]
      apply ih
      rw [keys_dictInsert]
      by_cases h : r.blind_id ∈ m.map Prod.fst
      · simpa [if_pos h] using hm
      · rw [if_neg h]
        simp only [List.nodup_append, List.nodup_singleton]
        exact ⟨hm, trivial, by simpa using fun hk => h hk⟩

theorem length_buildKey (rs : List TrialResult) :
    (buildKey rs).length = ((rs.map TrialResult.blind_id).toFinset).card := by
  have hnodup : ((buildKey rs).map Prod.fst).Nodup :=
    nodup_keys_foldl_dictInsert rs [] (by simp)
  have hset : ((buildKey rs).map Prod.fst).toFinset = (rs.map TrialResult.blind_id).toFinset := by
    ext key
    simp only [List.mem_toFinset]
    rw [buildKey, keys_foldl_dictInsert]
    simp
  calc (buildKey rs).length
      = ((buildKey rs).map Prod.fst).length := (List.length_map _ _).symm
    _ = ((buildKey rs).map Prod.fst).toFinset.card := (List.toFinset_card_of_nodup hnodup).symm
    _ = ((rs.map TrialResult.blind_id).toFinset).card := by rw [hset]

theorem length_buildKey_lt (rs : List TrialResult)
    (h : ¬ (rs.map TrialResult.blind_id).Nodup) :
    (buildKey rs).length < rs.length := by
  rw [length_buildKey, List.card_toFinset]
  have hsub : (rs.map TrialResult.blind_id).dedup.length ≤ (rs.map TrialResult.blind_id).length :=
    (List.dedup_sublist _).length_le
  have hne : (rs.map TrialResult.blind_id).dedup.length ≠ (rs.map TrialResult.blind_id).length := by
    intro he
    exact h (List.dedup_eq_self.mp ((List.dedup_sublist _).eq_of_length he))
  have : (rs.map TrialResult.blind_id).dedup.length < (rs.map TrialResult.blind_id).length :=
    lt_of_le_of_ne hsub hne
  simpa using this

/-- In a list whose projection is duplicate-free, `find?` on the projection
value of a member returns that member. -/
theorem find?_eq_of_nodup_map (rs : List TrialResult)
    (h : (rs.map TrialResult.blind_id).Nodup) (r : TrialResult) (hr : r ∈ rs) :
    rs.find? (fun x => x.blind_id == r.blind_id) = some r := by
  induction rs with
  | nil => cases hr
  | cons a t ih =>
      simp only [List.map_cons, List.nodup_cons] at h
      rcases List.mem_cons.mp hr with rfl | ht
      · simp [List.find?]
      · have hne : ¬ (a.blind_id == r.blind_id) = true := by
          simp only [beq_iff_eq]
          intro he
          exact h.1 (he ▸ List.mem_map_of_mem TrialResult.blind_id ht)
        simp only [List.find?, hne]
        simp only [Bool.false_eq_true, if_false] at *
        exact ih h.2 ht

/-! ### Cross-product trial list lemmas -/

theorem range_map_const {α : Type} (n : Nat) (x : α) :
    (List.range n).map (fun _ => x) = List.replicate n x := by
  rw [List.map_const']
  simp

theorem count_condBlock (q pid : String) (conditions : List Condition) (n : Nat)
    (c : Condition) :
    ((conditions.flatMap fun c' => (List.range n).map fun _ => (q, c')).count (pid, c))
      = if pid = q then n * conditions.count c else 0 := by
  induction conditions with
  | nil => simp
  | cons c₀ cs ih =>
      rw [List.flatMap_cons, List.count_append, ih, range_map_const,
        List.count_replicate, List.count_cons]
      by_cases hq : pid = q
      · subst hq
        by_cases hcc : c = c₀
        · subst hcc
          simp [Nat.mul_add, Nat.add_comm]
        · have h1 : ((pid, c₀) == (pid, c)) = false := by
            simp [Prod.ext_iff]
            intro h
            exact absurd h.symm hcc
          have h2 : (c == c₀) = false := beq_eq_false_iff_ne.mpr hcc
          simp [h1, h2]
          exact Or.inl fun h => hcc h.symm
      · have h1 : ((q, c₀) == (pid, c)) = false := by
          simp [Prod.ext_iff]
          intro h
          exact absurd h.symm hq
        simp [h1, hq]

theorem count_mkTrials_aux (problems : List (String × Problem))
    (conditions : List Condition) (n : Nat) (pid : String) (c : Condition)
    (hp : (problems.map Prod.fst).Nodup) :
    (mkTrials problems conditions n).count (pid, c)
      = if pid ∈ problems.map Prod.fst then n * conditions.count c else 0 := by
  induction problems with
  | nil => simp [mkTrials]
  | cons p ps ih =>
      simp only [List.map_cons, List.nodup_cons] at hp
      simp only [mkTrials, List.flatMap_cons, List.count_append]
      rw [count_condBlock]
      have ihp := ih hp.2
      rw [show (ps.flatMap fun p' =>
            conditions.flatMap fun c' => (List.range n).map fun _ => (p'.1, c'))
          = mkTrials ps conditions n from rfl, ihp]
      simp only [List.map_cons]
      by_cases h1 : pid = p.1
      · subst h1
        simp [hp.1]
      · have hmem : (pid ∈ p.1 :: ps.map Prod.fst) ↔ pid ∈ ps.map Prod.fst := by
          simp [List.mem_cons, h1]
        rw [if_congr hmem rfl rfl]
        simp [h1]

/-- Each (problem, condition) pair occurs exactly `n` times in the trial list. -/
theorem count_mkTrials (problems : List (String × Problem))
    (conditions : List Condition) (n : Nat) (pid : String) (c : Condition)
    (hp : (problems.map Prod.fst).Nodup) (hc : conditions.Nodup)
    (hpid : pid ∈ problems.map Prod.fst) (hcmem : c ∈ conditions) :
    (mkTrials problems conditions n).count (pid, c) = n := by
  rw [count_mkTrials_aux problems conditions n pid c hp, if_pos hpid,
    List.count_eq_one_of_mem hc hcmem, Nat.mul_one]

theorem length_condBlock (q : String) (conditions : List Condition) (n : Nat) :
    (conditions.flatMap fun c' => (List.range n).map fun _ => (q, c')).length
      = conditions.length * n := by
  induction conditions with
  | nil => simp
  | cons c₀ cs ih =>
      simp only [List.flatMap_cons, List.length_append, ih, List.length_map,
        List.length_range, List.length_cons]
      ring

theorem length_mkTrials (problems : List (String × Problem))
    (conditions : List Condition) (n : Nat) :
    (mkTrials problems conditions n).length
      = problems.length * conditions.length * n := by
  induction problems with
  | nil => simp [mkTrials]
  | cons p ps ih =>
      simp only [mkTrials, List.flatMap_cons, List.length_append, length_condBlock,
        List.length_cons] at *
      rw [ih]
      ring

/-! ### Trial loop lemmas -/

theorem length_runResults (gen : Nat → Except String (String × Bool × Option String))
    (bid stamp : Nat → String) (trials : List (String × Condition)) :
    (runResults gen bid stamp trials).length = trials.length := by
  simp [runResults, List.enum]

theorem length_runBlinds (problems : List (String × Problem))
    (gen : Nat → Except String (String × Bool × Option String))
    (bid : Nat → String) (trials : List (String × Condition)) :
    (runBlinds problems gen bid trials).length = trials.length := by
  simp [runBlinds, List.enum]

theorem getElem_runResults (gen : Nat → Except String (String × Bool × Option String))
    (bid stamp : Nat → String) (trials : List (String × Condition)) (i : Nat)
    (h : i < trials.length) (h2 : i < (runResults gen bid stamp trials).length) :
    (runResults gen bid stamp trials).get ⟨i, h2⟩
      = mkTrialResult gen bid stamp (i, trials.get ⟨i, h⟩) := by
  simp [runResults, List.enum, List.get_eq_getElem, List.getElem_map,
    List.getElem_enumFrom]

theorem getElem_runBlinds (problems : List (String × Problem))
    (gen : Nat → Except String (String × Bool × Option String))
    (bid : Nat → String) (trials : List (String × Condition)) (i : Nat)
    (h : i < trials.length) (h2 : i < (runBlinds problems gen bid trials).length) :
    (runBlinds problems gen bid trials).get ⟨i, h2⟩
      = mkBlindOutput problems gen bid (i, trials.get ⟨i, h⟩) := by
  simp [runBlinds, List.enum, List.get_eq_getElem, List.getElem_map,
    List.getElem_enumFrom]

theorem mkTrialResult_blind_id (gen : Nat → Except String (String × Bool × Option String))
    (bid stamp : Nat → String) (it : Nat × String × Condition) :
    (mkTrialResult gen bid stamp it).blind_id = bid it.1 := by
  unfold mkTrialResult
  cases hg : gen it.1 with
  | ok v => obtain ⟨a, b, c⟩ := v; rfl
  | error e => rfl

theorem mkBlindOutput_blind_id (problems : List (String × Problem))
    (gen : Nat → Except String (String × Bool × Option String))
    (bid : Nat → String) (it : Nat × String × Condition) :
    (mkBlindOutput problems gen bid it).blind_id = bid it.1 := by
  unfold mkBlindOutput
  cases hg : gen it.1 with
  | ok v => obtain ⟨a, b, c⟩ := v; rfl
  | error e => rfl

theorem mkBlindOutput_prompt (problems : List (String × Problem))
    (gen : Nat → Except String (String × Bool × Option String))
    (bid : Nat → String) (it : Nat × String × Condition) :
    (mkBlindOutput problems gen bid it).prompt
      = ((alookup problems it.2.1).getD defaultProblem).prompt := by
  unfold mkBlindOutput
  cases hg : gen it.1 with
  | ok v => obtain ⟨a, b, c⟩ := v; rfl
  | error e => rfl

theorem mkBlindOutput_problem_id (problems : List (String × Problem))
    (gen : Nat → Except String (String × Bool × Option String))
    (bid : Nat → String) (it : Nat × String × Condition) :
    (mkBlindOutput problems gen bid it).problem_id = it.2.1 := by
  unfold mkBlindOutput
  cases hg : gen it.1 with
  | ok v => obtain ⟨a, b, c⟩ := v; rfl
  | error e => rfl

/-- Re-attaching the trial's own condition to the redacted row restores exactly
the restriction of the full row: the two are built from the same trial data. -/
theorem restore_restrict (problems : List (String × Problem))
    (gen : Nat → Except String (String × Bool × Option String))
    (bid stamp : Nat → String) (it : Nat × String × Condition) :
    restoreCondition (mkBlindOutput problems gen bid it)
        ((mkTrialResult gen bid stamp it).condition)
      = restrictResult (mkTrialResult gen bid stamp it) := by
  unfold mkBlindOutput mkTrialResult restoreCondition restrictResult
  cases hg : gen it.1 with
  | ok v => obtain ⟨a, b, c⟩ := v; rfl
  | error e => rfl

theorem map_blind_id_runResults (gen : Nat → Except String (String × Bool × Option String))
    (bid stamp : Nat → String) (trials : List (String × Condition)) :
    (runResults gen bid stamp trials).map TrialResult.blind_id
      = trials.enum.map (fun it => bid it.1) := by
  rw [runResults, List.map_map]
  apply List.map_congr_left
  intro it _
  exact mkTrialResult_blind_id gen bid stamp it

theorem map_blind_id_runBlinds (problems : List (String × Problem))
    (gen : Nat → Except String (String × Bool × Option String))
    (bid stamp : Nat → String) (trials : List (String × Condition)) :
    (runBlinds problems gen bid trials).map BlindOutput.blind_id
      = (runResults gen bid stamp trials).map TrialResult.blind_id := by
  rw [runBlinds, List.map_map, map_blind_id_runResults]
  apply List.map_congr_left
  intro it _
  exact mkBlindOutput_blind_id problems gen bid it

/-! ### Scoring session lemmas -/

theorem processResponse_valid (resp : List Char) (r : ScoreRecord)
    (h : processResponse resp = some r) : ValidScore r := by
  unfold processResponse at h
  split at h
  · cases h
  · split at h
    · rename_i a b c d e hcond
      obtain rfl : _ = r := Option.some.inj h
      exact ⟨rfl, hcond.1.1, hcond.1.2, hcond.2.1.1, hcond.2.1.2, hcond.2.2.1.1,
        hcond.2.2.1.2, hcond.2.2.2.1.1, hcond.2.2.2.1.2, hcond.2.2.2.2.1,
        hcond.2.2.2.2.2⟩
    · cases h
  · cases h

theorem promptLoop_scored (inputs : List String) (sc : ScoreRecord)
    (rest : List String) (h : promptLoop inputs = PromptResult.scored sc rest) :
    ∃ resp : List Char, processResponse resp = some sc := by
  induction inputs with
  | nil => cases h
  | cons resp t ih =>
      unfold promptLoop at h
      dsimp only at h
      split at h
      · cases h
      · split at h
        · cases h
        · split at h
          · rename_i sc2 hsc
            obtain ⟨rfl, rfl⟩ : sc2 = sc ∧ t = rest := by
              cases h
              exact ⟨rfl, rfl⟩
            exact ⟨pyLower (pyStrip resp.data), hsc⟩
          · exact ih h

/-- Claim C7: for every scoring session over a blind-eval set and an existing
score store, a blind_id already present in the store at session start is never
prompted for again, and the record stored under it at session end is the one
loaded at session start — existing entries are skipped, never overwritten.
This holds at every exit point of the session (quit, completion, or the input
stream running out). -/
theorem resume_skips_existing (data : List BlindOutput) (inputs : List String)
    (init : Scores) (b : String) (r : ScoreRecord) (hb : alookup init b = some r) :
    alookup (sessionRun data inputs init).1 b = some r
    ∧ b ∉ (sessionRun data inputs init).2 := by
  induction data generalizing inputs init with
  | nil => exact ⟨hb, by simp [sessionRun]⟩
  | cons item rest ih =>
      have hne : item.blind_id ≠ b → b ≠ item.blind_id := Ne.symm
      simp only [sessionRun]
      by_cases hmem : (alookup init item.blind_id).isSome
      · rw [if_pos hmem]
        exact ih inputs init hb
      · rw [if_neg hmem]
        have hbne : b ≠ item.blind_id := by
          intro he
          rw [← he, hb] at hmem
          simp at hmem
        cases hq : promptLoop inputs with
        | quit => exact ⟨hb, by simp [hbne]⟩
        | exhausted => exact ⟨hb, by simp [hbne]⟩
        | skip remaining =>
            have h2 := ih remaining init hb
            exact ⟨h2.1, by simp [hbne, h2.2]⟩
        | scored sc remaining =>
            have hb2 : alookup ((item.blind_id, sc) :: init) b = some r := by
              simp only [alookup, if_neg hbne]
              exact hb
            have h2 := ih remaining ((item.blind_id, sc) :: init) hb2
            exact ⟨h2.1, by simp [hbne, h2.2]⟩

theorem sessionRun_valid (data : List BlindOutput) (inputs : List String)
    (init : Scores) (hinit : ∀ b r, alookup init b = some r → ValidScore r) :
    ∀ b r, alookup (sessionRun data inputs init).1 b = some r → ValidScore r := by
  induction data generalizing inputs init with
  | nil =>
      intro b r h
      exact hinit b r h
  | cons item rest ih =>
      intro b r h
      simp only [sessionRun] at h
      by_cases hmem : (alookup init item.blind_id).isSome
      · rw [if_pos hmem] at h
        exact ih inputs init hinit b r h
      · rw [if_neg hmem] at h
        cases hq : promptLoop inputs with
        | quit => rw [hq] at h; exact hinit b r h
        | exhausted => rw [hq] at h; exact hinit b r h
        | skip remaining => rw [hq] at h; exact ih remaining init hinit b r h
        | scored sc remaining =>
            rw [hq] at h
            refine ih remaining ((item.blind_id, sc) :: init) ?_ b r h
            intro b2 r2 h2
            simp only [alookup] at h2
            by_cases hbe : b2 = item.blind_id
            · rw [if_pos hbe] at h2
              obtain rfl : sc = r2 := Option.some.inj h2
              obtain ⟨resp, hresp⟩ := promptLoop_scored inputs sc remaining hq
              exact processResponse_valid resp sc hresp
            · rw [if_neg hbe] at h2
              exact hinit b2 r2 h2

/-! ### Analyzer lemmas -/

theorem sampleStdev_singleton (x : ℝ) : sampleStdev [x] = 0 := by
  simp [sampleStdev]

theorem pooledStd_ne_zero (control totals : List ℝ) : pooledStd control totals ≠ 0 := by
  unfold pooledStd
  split
  · exact one_ne_zero
  · rename_i h
    push_neg at h
    have h1 : 0 < sampleStdev control ^ 2 :=
      lt_of_le_of_ne (sq_nonneg _) (Ne.symm (pow_ne_zero 2 h.1))
    have h2 : (0:ℝ) ≤ sampleStdev totals ^ 2 := sq_nonneg _
    have h3 : 0 < (sampleStdev control ^ 2 + sampleStdev totals ^ 2) / 2 := by linarith
    exact ne_of_gt (Real.sqrt_pos.mpr h3)

theorem pySlice_length_le (s : String) (n : Nat) : (pySlice s n).length ≤ n := by
  have h : (pySlice s n).length = (s.data.take n).length := rfl
  rw [h, List.length_take]
  exact min_le_left _ _

theorem alookup_buildKey_of_nodup (rs : List TrialResult)
    (hids : (rs.map TrialResult.blind_id).Nodup) (r : TrialResult) (hr : r ∈ rs) :
    alookup (buildKey rs) r.blind_id = some r.condition := by
  rw [alookup_buildKey]
  have hrev : (rs.reverse.map TrialResult.blind_id).Nodup := by
    rw [List.map_reverse]
    exact List.nodup_reverse.mpr hids
  rw [find?_eq_of_nodup_map rs.reverse hrev r (List.mem_reverse.mpr hr)]
  rfl

/-! ### Claims -/

/-- Claim C3: for every input (prompt, completion, test, entry point, timeout)
and every sandbox behaviour, `check_correctness` returns (true, no error) when
the assembled program exits with status zero; (false, stderr truncated to at
most 500 characters) on nonzero exit; (false, "Timeout") when the timeout
elapses; (false, exception text truncated to at most 500 characters) when the
launch itself fails; and every error string it ever returns has at most 500
characters — it is a total function, so no exception escapes to the caller. -/
theorem check_correctness_cases (prompt completion test entry_point : String)
    (timeoutSec : ℚ) (exec : String → ExecOutcome) :
    (∀ s, exec (full_code prompt completion test entry_point) = ExecOutcome.completed 0 s →
        check_correctness prompt completion test entry_point timeoutSec exec = (true, none))
    ∧ (∀ rc s, rc ≠ 0 →
        exec (full_code prompt completion test entry_point) = ExecOutcome.completed rc s →
        check_correctness prompt completion test entry_point timeoutSec exec
          = (false, some (pySlice s 500)))
    ∧ (exec (full_code prompt completion test entry_point) = ExecOutcome.timedOut →
        check_correctness prompt completion test entry_point timeoutSec exec
          = (false, some "Timeout"))
    ∧ (∀ e, exec (full_code prompt completion test entry_point) = ExecOutcome.launchError e →
        check_correctness prompt completion test entry_point timeoutSec exec
          = (false, some (pySlice e 500)))
    ∧ (∀ msg,
        (check_correctness prompt completion test entry_point timeoutSec exec).2 = some msg →
        msg.length ≤ 500) := by
  refine ⟨?_, ?_, ?_, ?_, ?_⟩
  · intro s hs
    simp [check_correctness, hs]
  · intro rc s hrc hs
    simp [check_correctness, hs, hrc]
  · intro hs
    simp [check_correctness, hs]
  · intro e hs
    simp [check_correctness, hs]
  · intro msg hmsg
    unfold check_correctness at hmsg
    cases hx : exec (full_code prompt completion test entry_point) <;>
      rw [hx] at hmsg <;> dsimp only at hmsg
    case completed rc s =>
        by_cases hrc : rc = 0
        · rw [if_pos hrc] at hmsg
          cases hmsg
        · rw [if_neg hrc] at hmsg
          obtain rfl : pySlice s 500 = msg := by
            simpa using hmsg
          exact pySlice_length_le s 500
    case timedOut =>
        obtain rfl : "Timeout" = msg := by simpa using hmsg
        decide
    case launchError e =>
        obtain rfl : pySlice e 500 = msg := by simpa using hmsg
        exact pySlice_length_le e 500

/-- Witness for C3: a sandbox run that times out yields exactly
(false, "Timeout"). -/
theorem check_correctness_cases_witness :
    check_correctness "p" "c" "t" "f" 5 (fun _ => ExecOutcome.timedOut)
      = (false, some "Timeout") :=
  (check_correctness_cases "p" "c" "t" "f" 5 (fun _ => ExecOutcome.timedOut)).2.2.1 rfl

/-- Claim C4: every trial, failing or not, contributes exactly one
`TrialResult` (and one blind row) to the output sequences, and a trial whose
generation/checking raised an exception is still recorded with empty
completion, `passed = false`, and the descriptive error text — no single
trial's failure aborts the batch. -/
theorem trial_failure_isolated (problems : List (String × Problem))
    (gen : Nat → Except String (String × Bool × Option String))
    (bid stamp : Nat → String) (trials : List (String × Condition)) :
    (runResults gen bid stamp trials).length = trials.length
    ∧ (runBlinds problems gen bid trials).length = trials.length
    ∧ ∀ i, i < trials.length → ∀ e, gen i = Except.error e →
        ∃ h2 : i < (runResults gen bid stamp trials).length,
          ((runResults gen bid stamp trials).get ⟨i, h2⟩).completion = ""
          ∧ ((runResults gen bid stamp trials).get ⟨i, h2⟩).passed = false
          ∧ ((runResults gen bid stamp trials).get ⟨i, h2⟩).error
              = some ("Generation error: " ++ e) := by
  refine ⟨length_runResults gen bid stamp trials,
    length_runBlinds problems gen bid trials, ?_⟩
  intro i hi e he
  have h2 : i < (runResults gen bid stamp trials).length := by
    rw [length_runResults]
    exact hi
  refine ⟨h2, ?_⟩
  rw [getElem_runResults gen bid stamp trials i hi h2]
  simp [mkTrialResult, he]

/-- Witness for C4: a one-trial batch whose generation raises "boom" still
records one result, with the documented failure fields. -/
theorem trial_failure_isolated_witness :
    (runResults exGenFail exBid exStamp exTrials).length = exTrials.length
    ∧ ∃ h2 : 0 < (runResults exGenFail exBid exStamp exTrials).length,
        ((runResults exGenFail exBid exStamp exTrials).get ⟨0, h2⟩).completion = ""
        ∧ ((runResults exGenFail exBid exStamp exTrials).get ⟨0, h2⟩).passed = false
        ∧ ((runResults exGenFail exBid exStamp exTrials).get ⟨0, h2⟩).error
            = some ("Generation error: " ++ "boom") := by
  have h := trial_failure_isolated exProblems exGenFail exBid exStamp exTrials
  exact ⟨h.1, h.2.2 0 (by decide) "boom" rfl⟩

/-- Counterexample for C6 as stated: with the control condition (empty prefix
and suffix) and prompt "p", the text built by `generate_completion` differs
from the spec's `prefix + "Complete the following function:\n\n" + prompt +
suffix` — the source literal says "Complete the following Python function:". -/
theorem request_text_literal_cex :
    full_prompt "p" { name := "control", pfx := "", sfx := "" }
      ≠ specRequestText "p" { name := "control", pfx := "", sfx := "" } := by
  decide

/-- Claim C6 (amended): the full request text equals the condition's prefix,
followed by the literal text "Complete the following Python function:" and two
newlines, followed by the problem prompt, followed by the condition's suffix. -/
theorem request_text_structure (prompt : String) (condition : Condition) :
    full_prompt prompt condition
      = condition.pfx ++ ("Complete the following Python function:" ++ "\n" ++ "\n")
          ++ prompt ++ condition.sfx := by
  have hlit : ("Complete the following Python function:" ++ "\n" ++ "\n" : String)
      = "Complete the following Python function:\n\n" := by decide
  rw [hlit]
  rfl

/-- Claim C9: blind_id uniqueness is not enforced — the condition key is a
dict keyed by blind_id over the results sequence, so a lookup returns the
condition of the *last* result with that blind_id, and whenever two results
share a blind_id the key file has strictly fewer entries than the results
file. -/
theorem key_collision_later_wins (results : List TrialResult) :
    (∀ key, alookup (buildKey results) key
        = (results.reverse.find? fun r => r.blind_id == key).map TrialResult.condition)
    ∧ (¬ (results.map TrialResult.blind_id).Nodup →
        (buildKey results).length < results.length) :=
  ⟨fun key => alookup_buildKey results key, length_buildKey_lt results⟩

/-- Witness for C9: two results sharing blind_id "dupid" with conditions
"control" then "combined" — the key retains only "combined" and has one entry
for two results. -/
theorem key_collision_later_wins_witness :
    alookup (buildKey [exResA, exResB]) "dupid" = some "combined"
    ∧ (buildKey [exResA, exResB]).length < 2 := by
  have h := key_collision_later_wins [exResA, exResB]
  constructor
  · rw [h.1]
    decide
  · exact h.2 (by decide)

/-- Witness for C7: a store already containing "abc123" run over a blind set
containing "abc123" keeps the record unchanged and never prompts for it. -/
theorem resume_skips_existing_witness :
    alookup (sessionRun [exBlindItem] ["1,1,1,1,1"] [("abc123", exScore)]).1 "abc123"
      = some exScore
    ∧ "abc123" ∉ (sessionRun [exBlindItem] ["1,1,1,1,1"] [("abc123", exScore)]).2 :=
  resume_skips_existing [exBlindItem] ["1,1,1,1,1"] [("abc123", exScore)]
    "abc123" exScore (by decide)

/-- Claim C5: every ScoreRecord created by the interactive scoring session has
its five dimension values in [1,5] and its total equal to their exact sum; a
response with the wrong number of values, a value outside [1,5], or an
unparsable token is rejected (parses to nothing, hence re-prompted) and never
recorded. -/
theorem session_scorerecords_valid (data : List BlindOutput) (inputs : List String)
    (init : Scores) (hinit : ∀ b r, alookup init b = some r → ValidScore r) :
    (∀ b r, alookup (sessionRun data inputs init).1 b = some r → ValidScore r)
    ∧ (∀ (resp : List Char) r, processResponse resp = some r → ValidScore r)
    ∧ (∀ (resp : List Char) parts, parseParts resp = some parts → parts.length ≠ 5 →
        processResponse resp = none)
    ∧ (∀ (resp : List Char) parts x, parseParts resp = some parts → x ∈ parts →
        ¬ (1 ≤ x ∧ x ≤ 5) → processResponse resp = none)
    ∧ (∀ resp : List Char, parseParts resp = none → processResponse resp = none) := by
  refine ⟨sessionRun_valid data inputs init hinit,
    fun resp r h => processResponse_valid resp r h, ?_, ?_, ?_⟩
  · intro resp parts hp hlen
    unfold processResponse
    rw [hp]
    rcases parts with _ | ⟨a, _ | ⟨b, _ | ⟨c, _ | ⟨d, _ | ⟨e, _ | ⟨f, rest⟩⟩⟩⟩⟩⟩
    · rfl
    · rfl
    · rfl
    · rfl
    · rfl
    · exact absurd rfl hlen
    · rfl
  · intro resp parts x hp hx hnr
    unfold processResponse
    rw [hp]
    rcases parts with _ | ⟨a, _ | ⟨b, _ | ⟨c, _ | ⟨d, _ | ⟨e, _ | ⟨f, rest⟩⟩⟩⟩⟩⟩
    · cases hx
    · rfl
    · rfl
    · rfl
    · rfl
    · refine if_neg ?_
      intro hcond
      simp only [List.mem_cons, List.not_mem_nil, or_false] at hx
      rcases hx with rfl | rfl | rfl | rfl | rfl
      · exact hnr hcond.1
      · exact hnr hcond.2.1
      · exact hnr hcond.2.2.1
      · exact hnr hcond.2.2.2.1
      · exact hnr hcond.2.2.2.2
    · rfl
  · intro resp hp
    unfold processResponse
    rw [hp]

/-- Witness for C5: the response "3,2,4,3,3" produces a record whose total is
the exact sum 15 and whose dimensions all lie in [1,5]. -/
theorem session_scorerecords_valid_witness :
    ValidScore { edge_cases := 3, error_handling := 2, idiomaticity := 4,
                 documentation := 3, ship_it := 3, total := 15 } := by
  have h := session_scorerecords_valid [] [] [] (fun b r hb => nomatch hb)
  exact h.2.1 "3,2,4,3,3".data _ (by decide)

/-- Claim C8: the analyzer's reported effect size equals the difference of the
condition's mean total from the baseline mean total divided by the pooled
standard deviation; the pooled standard deviation is exactly 1 whenever either
group's sample standard deviation is zero; and a one-sample group has sample
standard deviation 0 by definition. -/
theorem effect_size_formula (control totals : List ℝ) :
    effectSize control totals
      = (listMean totals - listMean control) / pooledStd control totals
    ∧ ((sampleStdev control = 0 ∨ sampleStdev totals = 0) → pooledStd control totals = 1)
    ∧ (∀ x : ℝ, sampleStdev [x] = 0) := by
  refine ⟨?_, ?_, fun x => sampleStdev_singleton x⟩
  · unfold effectSize
    rw [if_pos (pooledStd_ne_zero control totals)]
  · intro h
    unfold pooledStd
    rw [if_pos h]

/-- Witness for C8: with one control sample (standard deviation defined as 0)
the pooled standard deviation is exactly 1 and the effect size is the mean
difference divided by it. -/
theorem effect_size_formula_witness :
    pooledStd [(10:ℝ)] [15, 16] = 1
    ∧ effectSize [(10:ℝ)] [15, 16]
        = (listMean [(15:ℝ), 16] - listMean [(10:ℝ)]) / pooledStd [(10:ℝ)] [15, 16] := by
  have h := effect_size_formula [(10:ℝ)] [15, 16]
  exact ⟨h.2.1 (Or.inl (h.2.2 10)), h.1⟩

/-- Claim C10: when the trial count is zero or the problem set is empty the
results sequence is empty: the three artifact files are still produced (all
empty), the summary's overall-pass-rate division has a zero denominator — in
the source a `ZeroDivisionError`, modelled as `summary = none` — while the
per-condition and per-problem pass-rate printouts guard the zero denominator
and report 0. -/
theorem empty_run_summary_divzero (problems : List (String × Problem)) (n : Nat)
    (gen : Nat → Except String (String × Bool × Option String))
    (bid stamp : Nat → String)
    (sh1 : List (String × Condition) → List (String × Condition))
    (sh2 : List BlindOutput → List BlindOutput)
    (h1 : ∀ l, (sh1 l).Perm l) (h2 : ∀ l : List BlindOutput, (sh2 l).Perm l)
    (h : n = 0 ∨ problems = []) :
    (run_experiment problems CONDITIONS n gen bid stamp sh1 sh2).resultsFile = []
    ∧ (run_experiment problems CONDITIONS n gen bid stamp sh1 sh2).blindEvalFile = []
    ∧ (run_experiment problems CONDITIONS n gen bid stamp sh1 sh2).keyFile = []
    ∧ (run_experiment problems CONDITIONS n gen bid stamp sh1 sh2).summary = none
    ∧ (∀ cname, condPassRate
        (run_experiment problems CONDITIONS n gen bid stamp sh1 sh2).resultsFile cname = 0)
    ∧ (∀ pid, probPassRate
        (run_experiment problems CONDITIONS n gen bid stamp sh1 sh2).resultsFile pid = 0) := by
  have htr : mkTrials problems CONDITIONS n = [] := by
    rcases h with rfl | rfl
    · simp [mkTrials]
    · simp [mkTrials]
  have hsh : sh1 (mkTrials problems CONDITIONS n) = [] := by
    rw [htr]
    exact (h1 []).eq_nil
  have hres : (run_experiment problems CONDITIONS n gen bid stamp sh1 sh2).resultsFile = [] := by
    simp [run_experiment, hsh, runResults]
  have hbl : (run_experiment problems CONDITIONS n gen bid stamp sh1 sh2).blindEvalFile = [] := by
    have hrb : runBlinds problems gen bid (sh1 (mkTrials problems CONDITIONS n)) = [] := by
      simp [hsh, runBlinds]
    simp only [run_experiment]
    rw [hrb]
    exact (h2 []).eq_nil
  refine ⟨hres, hbl, ?_, ?_, ?_, ?_⟩
  · simp [run_experiment, hsh, runResults, buildKey]
  · simp [run_experiment, hsh, runResults]
  · intro cname
    rw [hres]
    simp [condPassRate]
  · intro pid
    rw [hres]
    simp [probPassRate]

/-- Witness for C10: a run with trial count 0 yields no summary (the division
by zero) while the guarded per-condition rate for "control" is 0. -/
theorem empty_run_summary_divzero_witness :
    (run_experiment exProblems CONDITIONS 0 exGen exBid exStamp id id).summary = none
    ∧ condPassRate
        (run_experiment exProblems CONDITIONS 0 exGen exBid exStamp id id).resultsFile
        "control" = 0 := by
  have h := empty_run_summary_divzero exProblems 0 exGen exBid exStamp id id
    (fun l => List.Perm.refl l) (fun l => List.Perm.refl l) (Or.inl rfl)
  exact ⟨h.2.2.2.1, h.2.2.2.2.1 "control"⟩

/-- Claim C2: for every non-empty problem mapping, condition list and trial
count n, the trial sequence executed by `run_experiment` is a permutation of
the full cross-product problems x conditions x repetitions: every
(problem, condition) pair occurs exactly n times, and the number of trials
executed and of TrialResults produced equals |problems| * |conditions| * n. -/
theorem trial_schedule_cross_product (problems : List (String × Problem))
    (conditions : List Condition) (n : Nat)
    (gen : Nat → Except String (String × Bool × Option String))
    (bid stamp : Nat → String)
    (sh1 : List (String × Condition) → List (String × Condition))
    (sh2 : List BlindOutput → List BlindOutput)
    (h1 : ∀ l, (sh1 l).Perm l)
    (hp : (problems.map Prod.fst).Nodup) (hc : conditions.Nodup)
    (hne : problems ≠ []) :
    (sh1 (mkTrials problems conditions n)).Perm (mkTrials problems conditions n)
    ∧ (∀ pid ∈ problems.map Prod.fst, ∀ c ∈ conditions,
        (sh1 (mkTrials problems conditions n)).count (pid, c) = n)
    ∧ (sh1 (mkTrials problems conditions n)).length
        = problems.length * conditions.length * n
    ∧ (run_experiment problems conditions n gen bid stamp sh1 sh2).resultsFile.length
        = problems.length * conditions.length * n := by
  have hperm := h1 (mkTrials problems conditions n)
  refine ⟨hperm, ?_, ?_, ?_⟩
  · intro pid hpid c hcm
    have hcnt : (sh1 (mkTrials problems conditions n)).count (pid, c)
        = (mkTrials problems conditions n).count (pid, c) := by
      unfold List.count
      exact hperm.countP_eq _
    rw [hcnt]
    exact count_mkTrials problems conditions n pid c hp hc hpid hcm
  · rw [hperm.length_eq, length_mkTrials]
  · show (runResults gen bid stamp (sh1 (mkTrials problems conditions n))).length = _
    rw [length_runResults, hperm.length_eq, length_mkTrials]

/-- Witness for C2: one problem, the five reference conditions, one
repetition, identity shuffle — 1 * 5 * 1 results are produced. -/
theorem trial_schedule_cross_product_witness :
    (run_experiment exProblems CONDITIONS 1 exGen exBid exStamp id id).resultsFile.length
      = exProblems.length * CONDITIONS.length * 1 :=
  (trial_schedule_cross_product exProblems CONDITIONS 1 exGen exBid exStamp id id
    (fun l => List.Perm.refl l) (by decide) (by decide) (by decide)).2.2.2

/-- Claim C1 (amended): provided the blind_ids drawn in the run are pairwise
distinct, the blind-eval file and the key file are exact inverses of the
redaction: the set of blind_ids in the blind-eval file equals the set of
blind_ids in the full results file, every blind-eval entry's blind_id is a key
of the condition-key mapping, re-attaching the mapped condition to a blind-eval
entry reproduces exactly the corresponding full-results entry restricted to
the shared fields with condition restored, and each entry's prompt is the
problem table's prompt for its problem_id. -/
theorem blind_key_exact_inverse (problems : List (String × Problem))
    (conditions : List Condition) (n : Nat)
    (gen : Nat → Except String (String × Bool × Option String))
    (bid stamp : Nat → String)
    (sh1 : List (String × Condition) → List (String × Condition))
    (sh2 : List BlindOutput → List BlindOutput)
    (h1 : ∀ l, (sh1 l).Perm l) (h2 : ∀ l : List BlindOutput, (sh2 l).Perm l)
    (hids : ((run_experiment problems conditions n gen bid stamp sh1 sh2).resultsFile.map
        TrialResult.blind_id).Nodup) :
    (((run_experiment problems conditions n gen bid stamp sh1 sh2).blindEvalFile.map
          BlindOutput.blind_id).toFinset
        = ((run_experiment problems conditions n gen bid stamp sh1 sh2).resultsFile.map
          TrialResult.blind_id).toFinset)
    ∧ (∀ b ∈ (run_experiment problems conditions n gen bid stamp sh1 sh2).blindEvalFile,
        (alookup (run_experiment problems conditions n gen bid stamp sh1 sh2).keyFile
          b.blind_id).isSome)
    ∧ (∀ b ∈ (run_experiment problems conditions n gen bid stamp sh1 sh2).blindEvalFile,
        ∀ r ∈ (run_experiment problems conditions n gen bid stamp sh1 sh2).resultsFile,
          r.blind_id = b.blind_id →
          (alookup (run_experiment problems conditions n gen bid stamp sh1 sh2).keyFile
              b.blind_id).map (restoreCondition b)
            = some (restrictResult r))
    ∧ (∀ b ∈ (run_experiment problems conditions n gen bid stamp sh1 sh2).blindEvalFile,
        b.prompt = ((alookup problems b.problem_id).getD defaultProblem).prompt) := by
  have e1 : (run_experiment problems conditions n gen bid stamp sh1 sh2).resultsFile
      = runResults gen bid stamp (sh1 (mkTrials problems conditions n)) := rfl
  have e2 : (run_experiment problems conditions n gen bid stamp sh1 sh2).blindEvalFile
      = sh2 (runBlinds problems gen bid (sh1 (mkTrials problems conditions n))) := rfl
  have e3 : (run_experiment problems conditions n gen bid stamp sh1 sh2).keyFile
      = buildKey (runResults gen bid stamp (sh1 (mkTrials problems conditions n))) := rfl
  rw [e1] at hids
  rw [e1, e2, e3]
  set T := sh1 (mkTrials problems conditions n) with hT
  set R := runResults gen bid stamp T with hR
  set B := runBlinds problems gen bid T with hB
  have hmap : B.map BlindOutput.blind_id = R.map TrialResult.blind_id :=
    map_blind_id_runBlinds problems gen bid stamp T
  have hlenB : B.length = T.length := length_runBlinds problems gen bid T
  have hlenR : R.length = T.length := length_runResults gen bid stamp T
  refine ⟨?_, ?_, ?_, ?_⟩
  · have hp2 : ((sh2 B).map BlindOutput.blind_id).Perm (B.map BlindOutput.blind_id) :=
      (h2 B).map BlindOutput.blind_id
    have := List.toFinset_eq_of_perm _ _ hp2
    rw [hmap] at this
    exact this
  · intro b hb
    have hbB : b ∈ B := ((h2 B).mem_iff).mp hb
    have hbm : b.blind_id ∈ B.map BlindOutput.blind_id :=
      List.mem_map_of_mem BlindOutput.blind_id hbB
    rw [hmap] at hbm
    exact (alookup_buildKey_isSome R b.blind_id).mpr hbm
  · intro b hb r hr hid
    have hbB : b ∈ B := ((h2 B).mem_iff).mp hb
    obtain ⟨j, hj, hjb⟩ := List.getElem_of_mem hbB
    obtain ⟨k, hk, hkr⟩ := List.getElem_of_mem hr
    have hjT : j < T.length := by rw [hlenB] at hj; exact hj
    have hkT : k < T.length := by rw [hlenR] at hk; exact hk
    have hbeq : b = mkBlindOutput problems gen bid (j, T.get ⟨j, hjT⟩) := by
      rw [← hjb]
      exact getElem_runBlinds problems gen bid T j hjT hj
    have hreq : r = mkTrialResult gen bid stamp (k, T.get ⟨k, hkT⟩) := by
      rw [← hkr]
      exact getElem_runResults gen bid stamp T k hkT hk
    have hbid_b : b.blind_id = bid j := by
      rw [hbeq]
      exact mkBlindOutput_blind_id problems gen bid (j, T.get ⟨j, hjT⟩)
    have hbid_r : r.blind_id = bid k := by
      rw [hreq]
      exact mkTrialResult_blind_id gen bid stamp (k, T.get ⟨k, hkT⟩)
    have hjR : j < R.length := by rw [hlenR]; exact hjT
    have hjL : j < (R.map TrialResult.blind_id).length := by
      rw [List.length_map]; exact hjR
    have hkL : k < (R.map TrialResult.blind_id).length := by
      rw [List.length_map]; exact hk
    have hgj : R.get ⟨j, hjR⟩ = mkTrialResult gen bid stamp (j, T.get ⟨j, hjT⟩) :=
      getElem_runResults gen bid stamp T j hjT hjR
    have hgk : R.get ⟨k, hk⟩ = mkTrialResult gen bid stamp (k, T.get ⟨k, hkT⟩) :=
      getElem_runResults gen bid stamp T k hkT hk
    have hRj : (R.map TrialResult.blind_id).get ⟨j, hjL⟩ = bid j := by
      have hmj : (R.map TrialResult.blind_id).get ⟨j, hjL⟩ = (R.get ⟨j, hjR⟩).blind_id := by
        simp
      rw [hmj, hgj]
      exact mkTrialResult_blind_id gen bid stamp (j, T.get ⟨j, hjT⟩)
    have hRk : (R.map TrialResult.blind_id).get ⟨k, hkL⟩ = bid k := by
      have hmk : (R.map TrialResult.blind_id).get ⟨k, hkL⟩ = (R.get ⟨k, hk⟩).blind_id := by
        simp
      rw [hmk, hgk]
      exact mkTrialResult_blind_id gen bid stamp (k, T.get ⟨k, hkT⟩)
    have hkj : k = j := by
      have hge : (R.map TrialResult.blind_id).get ⟨k, hkL⟩
          = (R.map TrialResult.blind_id).get ⟨j, hjL⟩ := by
        rw [hRk, hRj, ← hbid_r, ← hbid_b]
        exact hid
      have := (List.Nodup.get_inj_iff hids).mp hge
      exact congrArg Fin.val this
    subst hkj
    have hrmem : r ∈ R := by
      rw [← hkr]
      exact List.getElem_mem hk
    have hlook : alookup (buildKey R) r.blind_id = some r.condition :=
      alookup_buildKey_of_nodup R hids r hrmem
    rw [← hid, hlook]
    have hrest : restoreCondition b r.condition = restrictResult r := by
      rw [hbeq, hreq]
      exact restore_restrict problems gen bid stamp (k, T.get ⟨k, hkT⟩)
    rw [Option.map_some', hrest]
  · intro b hb
    have hbB : b ∈ B := ((h2 B).mem_iff).mp hb
    obtain ⟨j, hj, hjb⟩ := List.getElem_of_mem hbB
    have hjT : j < T.length := by rw [hlenB] at hj; exact hj
    have hbeq : b = mkBlindOutput problems gen bid (j, T.get ⟨j, hjT⟩) := by
      rw [← hjb]
      exact getElem_runBlinds problems gen bid T j hjT hj
    rw [hbeq, mkBlindOutput_problem_id]
    exact mkBlindOutput_prompt problems gen bid (j, T.get ⟨j, hjT⟩)

/-- Witness for C1: a five-trial run with pairwise-distinct blind_ids (the
id stream is the decimal index) satisfies all four inverse properties. -/
theorem blind_key_exact_inverse_witness :
    (((run_experiment exProblems CONDITIONS 1 exGen exBid exStamp id id).blindEvalFile.map
          BlindOutput.blind_id).toFinset
        = ((run_experiment exProblems CONDITIONS 1 exGen exBid exStamp id id).resultsFile.map
          TrialResult.blind_id).toFinset)
    ∧ (∀ b ∈ (run_experiment exProblems CONDITIONS 1 exGen exBid exStamp id id).blindEvalFile,
        (alookup (run_experiment exProblems CONDITIONS 1 exGen exBid exStamp id id).keyFile
          b.blind_id).isSome)
    ∧ (∀ b ∈ (run_experiment exProblems CONDITIONS 1 exGen exBid exStamp id id).blindEvalFile,
        ∀ r ∈ (run_experiment exProblems CONDITIONS 1 exGen exBid exStamp id id).resultsFile,
          r.blind_id = b.blind_id →
          (alookup (run_experiment exProblems CONDITIONS 1 exGen exBid exStamp id id).keyFile
              b.blind_id).map (restoreCondition b)
            = some (restrictResult r))
    ∧ (∀ b ∈ (run_experiment exProblems CONDITIONS 1 exGen exBid exStamp id id).blindEvalFile,
        b.prompt = ((alookup exProblems b.problem_id).getD defaultProblem).prompt) :=
  blind_key_exact_inverse exProblems CONDITIONS 1 exGen exBid exStamp id id
    (fun l => List.Perm.refl l) (fun l => List.Perm.refl l) (by decide)

/-- Counterexample for C1 as stated: when the blind-id stream collides (all
trials draw "dupid"), the run violates the inverse property — the key maps
"dupid" to the last trial's condition, so re-attaching it to an earlier
trial's blind-eval entry does not reproduce that trial's record.  The claim
therefore fails without a distinctness hypothesis on the blind_ids. -/
theorem blind_key_inverse_unconditional_cex :
    ¬ ((((run_experiment exProblems CONDITIONS 1 exGen exBidDup exStamp id id).blindEvalFile.map
          BlindOutput.blind_id).toFinset
        = ((run_experiment exProblems CONDITIONS 1 exGen exBidDup exStamp id id).resultsFile.map
          TrialResult.blind_id).toFinset)
    ∧ (∀ b ∈ (run_experiment exProblems CONDITIONS 1 exGen exBidDup exStamp id id).blindEvalFile,
        (alookup (run_experiment exProblems CONDITIONS 1 exGen exBidDup exStamp id id).keyFile
          b.blind_id).isSome)
    ∧ (∀ b ∈ (run_experiment exProblems CONDITIONS 1 exGen exBidDup exStamp id id).blindEvalFile,
        ∀ r ∈ (run_experiment exProblems CONDITIONS 1 exGen exBidDup exStamp id id).resultsFile,
          r.blind_id = b.blind_id →
          (alookup (run_experiment exProblems CONDITIONS 1 exGen exBidDup exStamp id id).keyFile
              b.blind_id).map (restoreCondition b)
            = some (restrictResult r))
    ∧ (∀ b ∈ (run_experiment exProblems CONDITIONS 1 exGen exBidDup exStamp id id).blindEvalFile,
        b.prompt = ((alookup exProblems b.problem_id).getD defaultProblem).prompt)) := by
  decide
